import Mathlib

/-!
Verification of the AutoML_PRS estimator core (src/automl_prs/linear_estimators.py
and src/automl_prs/lgbm_estimators.py) against its natural-language specification.

The embedding models dataframes as lists of named rational-valued columns,
floating-point division by zero as `Option.none` (NaN/inf), Python `None`
returns as `Option.none`, and Python exceptions (AssertionError, KeyError)
as `Except.error` values.  Random draws made by the code (`np.random.shuffle`,
`np.random.choice`) are passed in as explicit parameters.
-/

namespace AutoMLPRS

/-- A named column of values, as one column of a pandas or polars DataFrame. -/
structure Column where
  name : String
  values : List ℚ
deriving DecidableEq

/-- The input object handed to `CustomMinMaxScaler.fit` / `transform`:
a pandas DataFrame, a polars DataFrame, or any other Python object
(for example a numpy array), which both isinstance checks reject. -/
inductive Table where
  | pandas (cols : List Column)
  | polars (cols : List Column)
  | other (rows : List (List ℚ))
deriving DecidableEq

/-- Python exceptions raised by the embedded code. -/
inductive PyError where
  | assertionError (msg : String)
  | keyError (key : String)
deriving DecidableEq

/-- A scaled column: each entry is `none` when the floating-point computation
produced NaN or inf (division by a zero range), `some q` otherwise. -/
structure ScaledColumn where
  name : String
  values : List (Option ℚ)
deriving DecidableEq

/-- The value returned by `CustomMinMaxScaler.transform`: a scaled dataframe,
or Python `None` when control falls off the end of the if/elif chain. -/
inductive TransformOutput where
  | scaled (cols : List ScaledColumn)
  | pyNone
deriving DecidableEq

/-- State of `CustomMinMaxScaler`: `__init__` sets both fields to Python `None`;
`fit` stores per-column minima and maxima. -/
structure CustomMinMaxScaler where
  min_vals : Option (List ℚ)
  max_vals : Option (List ℚ)
deriving DecidableEq

/-- Minimum of the column values (`X.min(axis=0)` / `X.min()` per column).
The empty-column case never arises in the code paths modelled here. -/
def listMin : List ℚ → ℚ
  | [] => 0
  | x :: xs => xs.foldl min x

/-- Maximum of the column values (`X.max(axis=0)` / `X.max()` per column). -/
def listMax : List ℚ → ℚ
  | [] => 0
  | x :: xs => xs.foldl max x

/-- Embeds `CustomMinMaxScaler.fit` (linear_estimators.py lines 34-42):
per-column min and max are stored for a pandas or a polars DataFrame;
any other input leaves the state unchanged (both isinstance checks fail). -/
def scalerFit (s : CustomMinMaxScaler) (X : Table) : CustomMinMaxScaler :=
  match X with
  | .pandas cols => ⟨some (cols.map (fun c => listMin c.values)),
                     some (cols.map (fun c => listMax c.values))⟩
  | .polars cols => ⟨some (cols.map (fun c => listMin c.values)),
                     some (cols.map (fun c => listMax c.values))⟩
  | .other _ => s

/-- IEEE-style division as performed by pandas: dividing by a zero range yields
NaN (0/0) or inf (x/0), both encoded as `none`. -/
def fdiv (a b : ℚ) : Option ℚ :=
  if b = 0 then none else some (a / b)

/-- The pandas branch of `transform` (line 50):
`(X - self.min_vals) / (self.max_vals - self.min_vals)` applied per column,
with no special case for a zero range. -/
def pandasScale (cols : List Column) (mins maxs : List ℚ) : List ScaledColumn :=
  (cols.zip (mins.zip maxs)).map (fun p =>
    ⟨p.1.name, p.1.values.map (fun x => fdiv (x - p.2.1) (p.2.2 - p.2.1))⟩)

/-- The polars branch of `transform` (lines 51-66): per column, if
`range_val == 0` the column becomes `X[column] - min_val`, otherwise
`(X[column] - min_val) / range_val`. -/
def polarsScale (cols : List Column) (mins maxs : List ℚ) : List ScaledColumn :=
  (cols.zip (mins.zip maxs)).map (fun p =>
    ⟨p.1.name,
      if p.2.2 - p.2.1 = 0 then
        p.1.values.map (fun x => some (x - p.2.1))
      else
        p.1.values.map (fun x => some ((x - p.2.1) / (p.2.2 - p.2.1)))⟩)

/-- Embeds `CustomMinMaxScaler.transform` (lines 44-66): asserts the scaler is
fitted, scales a pandas or polars DataFrame, and returns Python `None` for any
other input (no else branch). -/
def scalerTransform (s : CustomMinMaxScaler) (X : Table) :
    Except PyError TransformOutput :=
  match s.min_vals, s.max_vals with
  | some mins, some maxs =>
    match X with
    | .pandas cols => .ok (.scaled (pandasScale cols mins maxs))
    | .polars cols => .ok (.scaled (polarsScale cols mins maxs))
    | .other _ => .ok .pyNone
  | _, _ => .error (.assertionError "fit() must be called before transform()")

/-- The scaler as constructed by `__init__`: both stat fields are Python `None`. -/
def scalerInit : CustomMinMaxScaler := ⟨none, none⟩

/-- C1: the claim says a zero-variance feature transforms to a constant-zero
column identically for pandas and polars.  Evaluating the code on a single
constant column of 7s: after fit, the polars branch returns all zeros, but the
pandas branch computes (7-7)/(7-7) = 0/0 for every entry, producing NaN, so the
two representations do not behave identically and the pandas result is NaN,
not X - min. -/
theorem C1_pandas_zero_variance_divides_by_zero :
    scalerTransform (scalerFit scalerInit (Table.pandas [⟨"a", [7, 7, 7]⟩]))
        (Table.pandas [⟨"a", [7, 7, 7]⟩])
      = Except.ok (TransformOutput.scaled [⟨"a", [none, none, none]⟩]) ∧
    scalerTransform (scalerFit scalerInit (Table.polars [⟨"a", [7, 7, 7]⟩]))
        (Table.polars [⟨"a", [7, 7, 7]⟩])
      = Except.ok (TransformOutput.scaled [⟨"a", [some 0, some 0, some 0]⟩]) := by
  constructor
  · simp [scalerTransform, scalerFit, scalerInit, pandasScale, listMin, listMax, fdiv]
  · simp [scalerTransform, scalerFit, scalerInit, polarsScale, listMin, listMax]

/-- C10: for an input that is neither a pandas nor a polars DataFrame, `fit`
stores no statistics (state unchanged), and `transform` after a successful fit
falls off the end of the if/elif chain and returns Python `None`. -/
theorem C10_other_backend_silent (s : CustomMinMaxScaler) (rows : List (List ℚ))
    (mins maxs : List ℚ) :
    scalerFit s (Table.other rows) = s ∧
    scalerTransform ⟨some mins, some maxs⟩ (Table.other rows)
      = Except.ok TransformOutput.pyNone := by
  exact ⟨rfl, rfl⟩

/-- Embeds `subset_data(data, start, end)` (linear_estimators.py lines 69-75)
for the row axis: `data.iloc[start:end]`, `data.slice(start, end - start)` and
`data[start:end]` all denote the rows with indices in `[start, end)`, clamped
to the length of the data. -/
def subset_data {α : Type} (data : List α) (start stop : ℕ) : List α :=
  (data.drop start).take (stop - start)

/-- Embeds the loop body of `PartitionedEnsembleRows.fit` (lines 86-109) at the
level of the training sets handed to the clones: block `i` is
`subset_data(X, i*partition_size, end)` where `partition_size = len(y) // n_partitions`
and the end of the last block is `len(y)`.  The `perm` argument is the state of
`indices` after `np.random.shuffle(indices)` (line 88); the code computes it
and never reads it again, so the blocks slice the original row order. -/
def ensembleFitBlocks {α : Type} (perm : List ℕ) (data : List α)
    (nPartitions : ℕ) : List (List α) :=
  let ps := data.length / nPartitions
  (List.range nPartitions).map (fun i =>
    subset_data data (i * ps)
      (if i = nPartitions - 1 then data.length else (i + 1) * ps))

/-- Modelled from the spec: `fit` splits the random PERMUTATION of row indices
into contiguous blocks and trains each clone on a block of that permutation
(spec 4.4 steps (1)-(3)).  The data is reordered by `perm` before slicing. -/
def ensembleFitBlocksSpec {α : Type} (perm : List ℕ) (data : List α)
    (nPartitions : ℕ) : List (List α) :=
  let shuffled := perm.filterMap (fun i => data[i]?)
  let ps := data.length / nPartitions
  (List.range nPartitions).map (fun i =>
    subset_data shuffled (i * ps)
      (if i = nPartitions - 1 then data.length else (i + 1) * ps))

/-- State of a `PartitionedEnsembleRows` instance; each fitted member model is
represented by the list of row indices it was trained on. -/
structure EnsembleState where
  nPartitions : ℕ
  models : List (List ℕ)
deriving DecidableEq

/-- Embeds `PartitionedEnsembleRows.__init__` (lines 79-84): the model list
starts empty. -/
def EnsembleState.init (nPartitions : ℕ) : EnsembleState :=
  ⟨nPartitions, []⟩

/-- Embeds `PartitionedEnsembleRows.fit` on a dataset of `N` rows: one fitted
clone per partition is appended to `self.models`, in partition order.  `perm`
is the shuffled (and unused) index array.  The existing model list is not
cleared. -/
def ensembleFit (s : EnsembleState) (perm : List ℕ) (N : ℕ) : EnsembleState :=
  { s with models := s.models ++ ensembleFitBlocks perm (List.range N) s.nPartitions }

/-- Pointwise addition of prediction vectors (`predictions += model.predict(X)`). -/
def vecAdd (a b : List ℚ) : List ℚ :=
  List.zipWith (· + ·) a b

/-- Embeds `PartitionedEnsembleRows.predict` (lines 111-123) given the list of
member predictions on `X` (`n` = `len(X)`): start from `np.zeros(len(X))`,
accumulate the prediction of every member, divide by `n_partitions`. -/
def ensemblePredict (nPartitions : ℕ) (preds : List (List ℚ)) (n : ℕ) : List ℚ :=
  (preds.foldl vecAdd (List.replicate n 0)).map (fun x => x / (nPartitions : ℚ))

/-- `predict` on an ensemble state: `memberPred` gives the prediction of each fitted member vector on the input; only `s.models` and `s.nPartitions` are read
and the state is not modified. -/
def statePredict (s : EnsembleState) (memberPred : List ℕ → List ℚ) (n : ℕ) :
    List ℚ :=
  ensemblePredict s.nPartitions (s.models.map memberPred) n

/-- C2: the claim says each clone trains on a block of the random permutation.
Evaluating the code on 4 rows with values [10,20,30,40], 2 partitions, and the
shuffled index array [2,0,3,1]: the code trains the clones on the original-order
blocks [10,20] and [30,40], not on the blocks of the permutation [30,10] and [40,20]
— `indices` is computed and never used.  The block-size arithmetic itself
matches the claim: with 100 rows and 3 partitions the sizes are 33, 33, 34. -/
theorem C2_shuffle_never_applied :
    ensembleFitBlocks [2, 0, 3, 1] [(10 : ℚ), 20, 30, 40] 2
      = [[10, 20], [30, 40]] ∧
    ensembleFitBlocksSpec [2, 0, 3, 1] [(10 : ℚ), 20, 30, 40] 2
      = [[30, 10], [40, 20]] ∧
    ensembleFitBlocks [2, 0, 3, 1] [(10 : ℚ), 20, 30, 40] 2
      ≠ ensembleFitBlocksSpec [2, 0, 3, 1] [(10 : ℚ), 20, 30, 40] 2 ∧
    (ensembleFitBlocks ((List.range 100).reverse) (List.range 100) 3).map
        List.length = [33, 33, 34] := by
  refine ⟨by decide, by decide, by decide, by decide⟩

/-- Each fit run produces exactly `nPartitions` blocks. -/
theorem length_ensembleFitBlocks {α : Type} (perm : List ℕ) (data : List α)
    (k : ℕ) : (ensembleFitBlocks perm data k).length = k := by
  simp [ensembleFitBlocks]

/-- C5 counterexample: the claim says the model list is empty at the start of
EACH training run, so after any completed fit it holds exactly `n_partitions`
models.  The code clears `self.models` only in `__init__`: after a second fit
(4 rows, 2 partitions) the list holds 4 models, not 2. -/
theorem C5_second_fit_accumulates :
    (ensembleFit (ensembleFit (EnsembleState.init 2) [0, 1, 2, 3] 4)
        [0, 1, 2, 3] 4).models.length = 4 ∧ (4 : ℕ) ≠ 2 := by
  refine ⟨by decide, by decide⟩

/-- C5 (amended): the model list is empty at construction; each fit run appends
exactly `n_partitions` fitted clones in partition order without clearing the
list (so only after the first fit does it hold exactly `n_partitions` models),
and prediction reads the list without modifying the state. -/
theorem C5_model_list_lifecycle (s : EnsembleState) (perm : List ℕ)
    (N k n : ℕ) (f : List ℕ → List ℚ) :
    (EnsembleState.init k).models = [] ∧
    (ensembleFit s perm N).models
      = s.models ++ ensembleFitBlocks perm (List.range N) s.nPartitions ∧
    (ensembleFit s perm N).models.length = s.models.length + s.nPartitions ∧
    (ensembleFit (EnsembleState.init k) perm N).models.length = k ∧
    statePredict s f n = ensemblePredict s.nPartitions (s.models.map f) n := by
  refine ⟨rfl, rfl, ?_, ?_, rfl⟩
  · simp [ensembleFit, length_ensembleFitBlocks]
  · simp [ensembleFit, EnsembleState.init, length_ensembleFitBlocks]

/-- Entry `i` of a pointwise sum, when `i` is within both summands. -/
theorem getD_vecAdd (a b : List ℚ) (i : ℕ) (ha : i < a.length)
    (hb : i < b.length) :
    (vecAdd a b).getD i 0 = a.getD i 0 + b.getD i 0 := by
  induction a generalizing b i with
  | nil => simp at ha
  | cons x xs ih =>
    cases b with
    | nil => simp at hb
    | cons y ys =>
      cases i with
      | zero => simp [vecAdd]
      | succ j =>
        simp only [vecAdd, List.zipWith_cons_cons, List.getD_cons_succ]
        exact ih ys j (Nat.lt_of_succ_lt_succ ha) (Nat.lt_of_succ_lt_succ hb)

/-- Accumulating equal-length prediction vectors preserves the length. -/
theorem length_foldl_vecAdd (preds : List (List ℚ)) (acc : List ℚ) (n : ℕ)
    (hacc : acc.length = n) (h : ∀ p ∈ preds, p.length = n) :
    (preds.foldl vecAdd acc).length = n := by
  induction preds generalizing acc with
  | nil => simpa using hacc
  | cons p ps ih =>
    simp only [List.foldl_cons]
    refine ih (vecAdd acc p) ?_ (fun q hq => h q (List.mem_cons_of_mem p hq))
    simp [vecAdd, hacc, h p (List.mem_cons_self p ps)]

/-- Entry `i` of the accumulated sum equals the entry of the accumulator plus the
sum of the entries of the members. -/
theorem getD_foldl_vecAdd (preds : List (List ℚ)) (acc : List ℚ) (n i : ℕ)
    (hacc : acc.length = n) (h : ∀ p ∈ preds, p.length = n) (hi : i < n) :
    (preds.foldl vecAdd acc).getD i 0
      = acc.getD i 0 + (preds.map (fun p => p.getD i 0)).sum := by
  induction preds generalizing acc with
  | nil => simp
  | cons p ps ih =>
    simp only [List.foldl_cons, List.map_cons, List.sum_cons]
    rw [ih (vecAdd acc p) ?_ (fun q hq => h q (List.mem_cons_of_mem p hq))]
    · rw [getD_vecAdd acc p i (hacc ▸ hi)
        ((h p (List.mem_cons_self p ps)) ▸ hi)]
      ring
    · simp [vecAdd, hacc, h p (List.mem_cons_self p ps)]

/-- C9: for every fitted ensemble and member predictions each of length `n`,
`predict` returns exactly `n` values and its `i`-th value is the sum of the
i-th member predictions divided by `n_partitions` — the unweighted
arithmetic mean, not weighted by partition size. -/
theorem C9_predict_unweighted_mean (k n i : ℕ) (preds : List (List ℚ))
    (h : ∀ p ∈ preds, p.length = n) (hi : i < n) :
    (ensemblePredict k preds n).length = n ∧
    (ensemblePredict k preds n).getD i 0
      = (preds.map (fun p => p.getD i 0)).sum / (k : ℚ) := by
  have hlen : (preds.foldl vecAdd (List.replicate n 0)).length = n :=
    length_foldl_vecAdd preds _ n (by simp) h
  constructor
  · simp [ensemblePredict, hlen]
  · have hget := getD_foldl_vecAdd preds (List.replicate n 0) n i (by simp) h hi
    have hi2 : i < (preds.foldl vecAdd (List.replicate n 0)).length := by
      rw [hlen]; exact hi
    simp only [ensemblePredict]
    rw [List.getD_eq_getElem _ _ (by simpa using hi2), List.getElem_map,
      ← List.getD_eq_getElem _ (0 : ℚ) hi2, hget]
    simp

/-- C9 witness: two member models with predictions [1,3] and [5,7] on a 2-row
input, 2 partitions: predict returns 2 values and entry 0 is (1+5)/2. -/
theorem C9_predict_unweighted_mean_witness :
    (ensemblePredict 2 [[(1 : ℚ), 3], [5, 7]] 2).length = 2 ∧
    (ensemblePredict 2 [[(1 : ℚ), 3], [5, 7]] 2).getD 0 0
      = (([[(1 : ℚ), 3], [5, 7]].map (fun p => p.getD 0 0)).sum) / (2 : ℚ) :=
  C9_predict_unweighted_mean 2 2 0 [[(1 : ℚ), 3], [5, 7]]
    (by decide) (by decide)

/-- C6 counterexample: the claim says the ensemble method `predict` invoked before `fit`
fails with an unfit-state error.  The code has no such check: on an unfit
ensemble (empty model list, 3 partitions) and a 2-row input, `predict` returns
the value [0, 0] (the zero accumulator divided by `n_partitions`), not an
error. -/
theorem C6_unfit_predict_returns_zeros :
    statePredict (EnsembleState.init 3) (fun _ => [1, 2]) 2 = [0, 0] := by
  simp [statePredict, EnsembleState.init, ensemblePredict, List.replicate]

/-- C6 (amended): the Scaler method `transform` invoked before `fit` fails with an
assertion (unfit-state) error, but the ensemble method `predict` invoked before `fit` does
not fail — it returns an all-zero vector of length `len(X)`. -/
theorem C6_unfit_calls (X : Table) (f : List ℕ → List ℚ) (n k : ℕ) :
    scalerTransform scalerInit X
      = Except.error
          (PyError.assertionError "fit() must be called before transform()") ∧
    statePredict (EnsembleState.init k) f n = List.replicate n 0 := by
  constructor
  · rfl
  · simp [statePredict, EnsembleState.init, ensemblePredict, List.map_replicate]

/-- The keyword arguments of a fit call that matter to the groups logic:
the optional `groups` keyword and the optional `group` keyword. -/
structure Kwargs where
  groups : Option (List ℕ)
  group : Option (List ℕ)
deriving DecidableEq

/-- Modelled from the spec: `flaml.automl.data.group_counts` (external to this
repository) converts a group-id vector to per-group row counts, one count per
distinct group in order of first occurrence. -/
def group_counts (groups : List ℕ) : List ℕ :=
  (groups.foldl (fun acc g => if g ∈ acc then acc else acc ++ [g]) []).map
    (fun g => groups.count g)

/-- Embeds the groups handling of `LGBMEstimatorPRS._fit`
(lgbm_estimators.py lines 126-130): if `groups` is present it is popped from
the kwargs, and only for a ranking task is `group = group_counts(groups)`
added. -/
def handleGroups (task : String) (kwargs : Kwargs) : Kwargs :=
  match kwargs.groups with
  | none => kwargs
  | some gs =>
    let popped : Kwargs := { kwargs with groups := none }
    if task = "rank" then { popped with group := some (group_counts gs) }
    else popped

/-- C4 counterexample: the claim says that for a non-ranking task `groups` is
passed through to the underlying learner unmodified.  The code pops it: for a
regression task with `groups = [0, 0, 1]` the resulting kwargs contain no
`groups` key at all. -/
theorem C4_groups_dropped_for_regression :
    (handleGroups "regression" ⟨some [0, 0, 1], none⟩).groups ≠ some [0, 0, 1] ∧
    handleGroups "regression" ⟨some [0, 0, 1], none⟩ = ⟨none, none⟩ := by
  refine ⟨by decide, by decide⟩

/-- C4 (amended): when `groups` is present it is always removed from the
kwargs; for a ranking task the per-group row counts are passed to the learner
under the `group` key, and for every other task `groups` is dropped and
nothing replaces it; kwargs without a `groups` key are left unchanged. -/
theorem C4_groups_handling (task : String) (gs : List ℕ)
    (g0 : Option (List ℕ)) (k : Kwargs) (htask : task ≠ "rank")
    (hnone : k.groups = none) :
    handleGroups "rank" ⟨some gs, g0⟩ = ⟨none, some (group_counts gs)⟩ ∧
    handleGroups task ⟨some gs, g0⟩ = ⟨none, g0⟩ ∧
    handleGroups task k = k := by
  refine ⟨rfl, ?_, ?_⟩
  · simp [handleGroups, htask]
  · cases k with
    | mk kg kgr => cases hnone; rfl

/-- C4 witness: the amended groups handling at task "regression",
`groups = [0, 0, 1]`, no prior `group` key. -/
theorem C4_groups_handling_witness :
    handleGroups "rank" ⟨some [0, 0, 1], none⟩
      = ⟨none, some (group_counts [0, 0, 1])⟩ ∧
    handleGroups "regression" ⟨some [0, 0, 1], none⟩ = ⟨none, none⟩ ∧
    handleGroups "regression" (⟨none, none⟩ : Kwargs) = ⟨none, none⟩ :=
  C4_groups_handling "regression" [0, 0, 1] none ⟨none, none⟩
    (by decide) rfl

/-- Row filtering by a boolean mask: `X[mask]` / `X.filter(mask)` keeps the
rows whose mask entry is true, in order. -/
def maskFilter {α : Type} (mask : List Bool) (xs : List α) : List α :=
  (mask.zip xs).filterMap (fun p => if p.1 then some p.2 else none)

/-- Embeds the validation-split block of `LGBMEstimatorPRS._fit`
(lines 134-151): one mask drawn by `np.random.choice` is applied to the
feature table and to the label vector alike; the result is
(X_val, X_train, y_val, y_train). -/
def validationSplit {α β : Type} (mask : List Bool) (X : List α) (y : List β) :
    List α × List α × List β × List β :=
  (maskFilter mask X, maskFilter (mask.map not) X,
   maskFilter mask y, maskFilter (mask.map not) y)

/-- The rows kept by a mask and those kept by its negation together are a
permutation of the original rows. -/
theorem maskFilter_append_perm {α : Type} (mask : List Bool) (l : List α)
    (h : mask.length = l.length) :
    List.Perm (maskFilter mask l ++ maskFilter (mask.map not) l) l := by
  induction mask generalizing l with
  | nil =>
    cases l with
    | nil => simp [maskFilter]
    | cons x xs => simp at h
  | cons b ms ih =>
    cases l with
    | nil => simp at h
    | cons x xs =>
      have hx := ih xs (Nat.succ_injective h)
      cases b with
      | true =>
        simpa [maskFilter] using hx.cons x
      | false =>
        simp only [maskFilter, List.map_cons, Bool.not_false, List.zip_cons_cons,
          List.filterMap_cons] at hx ⊢
        simp only [if_pos, if_neg, Bool.false_eq_true, not_false_iff]
        exact List.perm_middle.trans (hx.cons x)

/-- Filtering a zipped table by a mask equals zipping the two filtered sides:
the single shared mask keeps the row-label correspondence exact. -/
theorem maskFilter_zip {α β : Type} (mask : List Bool) (X : List α)
    (y : List β) (hx : mask.length = X.length) (hy : mask.length = y.length) :
    maskFilter mask (X.zip y) = (maskFilter mask X).zip (maskFilter mask y) := by
  induction mask generalizing X y with
  | nil =>
    cases X with
    | nil => simp [maskFilter]
    | cons a as => simp at hx
  | cons b ms ih =>
    cases X with
    | nil => simp at hx
    | cons a as =>
      cases y with
      | nil => simp at hy
      | cons c cs =>
        have hrec := ih as cs (Nat.succ_injective hx) (Nat.succ_injective hy)
        cases b with
        | true => simp [maskFilter, List.filterMap_cons] at hrec ⊢; exact hrec
        | false => simpa [maskFilter, List.filterMap_cons] using hrec

/-- C8: the validation split applies one boolean mask to the feature rows and
to the labels: validation and train rows together are a permutation of the
original rows (likewise for the labels), the two row sets are disjoint
whenever row identities are distinct, and the row-label pairing is preserved
on both sides of the split. -/
theorem C8_single_mask_split {α β : Type} (mask : List Bool) (X : List α)
    (y : List β) (hx : mask.length = X.length) (hy : mask.length = y.length) :
    List.Perm ((validationSplit mask X y).1 ++ (validationSplit mask X y).2.1) X ∧
    List.Perm ((validationSplit mask X y).2.2.1 ++ (validationSplit mask X y).2.2.2) y ∧
    (X.Nodup →
      (validationSplit mask X y).1.Disjoint (validationSplit mask X y).2.1) ∧
    maskFilter mask (X.zip y)
      = ((validationSplit mask X y).1).zip (validationSplit mask X y).2.2.1 ∧
    maskFilter (mask.map not) (X.zip y)
      = ((validationSplit mask X y).2.1).zip (validationSplit mask X y).2.2.2 := by
  have hxperm := maskFilter_append_perm mask X hx
  have hyperm := maskFilter_append_perm mask y hy
  refine ⟨hxperm, hyperm, ?_, ?_, ?_⟩
  · intro hnodup
    have : (maskFilter mask X ++ maskFilter (mask.map not) X).Nodup :=
      hxperm.symm.nodup hnodup
    exact (List.nodup_append.mp this).2.2
  · exact maskFilter_zip mask X y hx hy
  · exact maskFilter_zip (mask.map not) X y (by simpa using hx) (by simpa using hy)

/-- C8 witness: mask [true, false, true] on rows [10, 20, 30] with labels
[5, 6, 7]. -/
theorem C8_single_mask_split_witness :
    List.Perm ((validationSplit [true, false, true] [10, 20, 30] [5, 6, 7]).1
      ++ (validationSplit [true, false, true] [10, 20, 30] [5, 6, 7]).2.1)
      [10, 20, 30] ∧
    List.Perm ((validationSplit [true, false, true] [10, 20, 30] [5, 6, 7]).2.2.1
      ++ (validationSplit [true, false, true] [10, 20, 30] [5, 6, 7]).2.2.2)
      [5, 6, 7] ∧
    (([10, 20, 30] : List ℕ).Nodup →
      (validationSplit [true, false, true] [10, 20, 30] [5, 6, 7]).1.Disjoint
        (validationSplit [true, false, true] [10, 20, 30] [5, 6, 7]).2.1) ∧
    maskFilter [true, false, true] (([10, 20, 30] : List ℕ).zip [5, 6, 7])
      = ((validationSplit [true, false, true] [10, 20, 30] [5, 6, 7]).1).zip
          (validationSplit [true, false, true] [10, 20, 30] [5, 6, 7]).2.2.1 ∧
    maskFilter ([true, false, true].map not) (([10, 20, 30] : List ℕ).zip [5, 6, 7])
      = ((validationSplit [true, false, true] [10, 20, 30] [5, 6, 7]).2.1).zip
          (validationSplit [true, false, true] [10, 20, 30] [5, 6, 7]).2.2.2 := by
  exact C8_single_mask_split [true, false, true] ([10, 20, 30] : List ℕ)
    ([5, 6, 7] : List ℕ) (by decide) (by decide)

/-- The data produced by `LGBMEstimatorPRS._fit` that the claims observe:
the kwargs handed to the learner, the train/validation split, and the
returned elapsed training time (`time.time() - current_time`). -/
structure LgbmFitResult (α β : Type) where
  kwargs : Kwargs
  X_fit : List α
  y_fit : List β
  X_val : List α
  y_val : List β
  train_time : ℚ

/-- Embeds `LGBMEstimatorPRS._fit` (lgbm_estimators.py lines 92-187):
records `current_time`, handles the `groups` keyword, preprocesses (the base
variant has a `_preprocess` that returns `X` unchanged), splits train/validation with
one random mask (`np.random.choice`, passed in as `mask`), fits the learner,
and RETURNS the elapsed wall-clock time `tEnd - tStart`.  `tStart` and `tEnd`
are the two `time.time()` readings. -/
def lgbmFit {α β : Type} (task : String) (kwargs : Kwargs) (X : List α)
    (y : List β) (mask : List Bool) (tStart tEnd : ℚ) : LgbmFitResult α β :=
  let kw := handleGroups task kwargs
  ⟨kw, maskFilter (mask.map not) X, maskFilter (mask.map not) y,
    maskFilter mask X, maskFilter mask y, tEnd - tStart⟩

/-- Modelled from the spec: the flaml method `SKLearnEstimator._fit` (external to this
repository) fits the underlying learner and returns the elapsed wall-clock
training time in seconds. -/
def sklearnBaseFit (tStart tEnd : ℚ) : ℚ := tEnd - tStart

/-- Embeds `ElasticNetEstimatorPRS._fit` (linear_estimators.py lines 189-200):
the body calls `super()._fit(X_train, y_train, **kwargs)` on its last line but
has no return statement, so the result of the call is discarded and the method
returns Python `None`.  The same shape is shared by the multi-threshold and
SGD `_fit` overrides (lines 239-257, 348-366, 446-457, 511-529). -/
def elasticNetFit (tStart tEnd : ℚ) : Option ℚ :=
  let _discarded := sklearnBaseFit tStart tEnd
  none

/-- C3: the claim says the fit of every estimator variant returns the positive
elapsed training time, never None.  Evaluating at `time.time()` readings 0 and
5: the LGBM variant does return the elapsed 5 seconds, but the elastic-net
variant method `_fit` (and through it the flaml `fit`) returns Python `None` — its
body never returns the value `super()._fit` produced. -/
theorem C3_elasticnet_fit_returns_none :
    elasticNetFit 0 5 = none ∧
    (lgbmFit "regression" ⟨none, none⟩ [(1 : ℚ)] [(1 : ℚ)] [false] 0 5).train_time
      = 5 ∧ (0 : ℚ) < 5 := by
  refine ⟨rfl, by norm_num [lgbmFit], by norm_num⟩

/-- A dataframe for column selection: an ordered list of named columns. -/
structure DataFrame where
  cols : List Column
deriving DecidableEq

/-- `X[name]`: the first column with the given name, if any. -/
def lookupCol (df : DataFrame) (name : String) : Option Column :=
  df.cols.find? (fun c => c.name = name)

/-- Resolve a list of column names in order; `none` when any is missing
(pandas `X[cols]` raises KeyError in that case). -/
def lookupAll (df : DataFrame) : List String → Option (List Column)
  | [] => some []
  | n :: ns =>
    match lookupCol df n, lookupAll df ns with
    | some c, some cs => some (c :: cs)
    | _, _ => none

/-- `X[names]`: the dataframe restricted to the named columns, in the order
requested. -/
def selectColumns (df : DataFrame) (names : List String) :
    Except PyError DataFrame :=
  match lookupAll df names with
  | some cs => .ok ⟨cs⟩
  | none => .error (.keyError "column not found")

/-- `self.var_sets_map[self.filter_threshold]` on a threshold→variant-list
mapping: a Python dict lookup, raising `KeyError(key)` when the key is
absent. -/
def mapLookup (m : List (String × List String)) (k : String) :
    Except PyError (List String) :=
  match m.find? (fun p => p.1 = k) with
  | some p => .ok p.2
  | none => .error (.keyError k)

/-- Embeds the feature-subsetting step of
`LGBMEstimatorMultiThreshPRS._preprocess` (lgbm_estimators.py lines 207-218)
and of `ElasticNetEstimatorMultiThreshPRS._preprocess` (linear_estimators.py
lines 222-237, before its optional scaling):
`var_subset = var_sets_map[filter_threshold]; X = X[covar_cols + var_subset]`. -/
def multiThreshSubset (var_sets_map : List (String × List String))
    (covar_cols : List String) (filter_threshold : String) (X : DataFrame) :
    Except PyError DataFrame :=
  match mapLookup var_sets_map filter_threshold with
  | .ok var_subset => selectColumns X (covar_cols ++ var_subset)
  | .error e => .error e

/-- Columns resolved by name carry exactly the requested names, in order. -/
theorem lookupAll_names (df : DataFrame) (names : List String)
    (cs : List Column) (h : lookupAll df names = some cs) :
    cs.map Column.name = names := by
  induction names generalizing cs with
  | nil => simp [lookupAll] at h; simp [← h]
  | cons n ns ih =>
    simp only [lookupAll] at h
    cases hc : lookupCol df n with
    | none => rw [hc] at h; simp at h
    | some c =>
      cases hcs : lookupAll df ns with
      | none => rw [hc, hcs] at h; simp at h
      | some cs0 =>
        rw [hc, hcs] at h
        cases h
        have hname : c.name = n := by
          have := List.find?_some hc
          simpa using this
        simp [hname, ih cs0 hcs]

/-- C7: for a threshold key present in the map and a dataset containing all
the requested columns, the feature-subsetting step returns the dataset
restricted to exactly `covar_cols ++ var_sets_map[key]`, covariates first and
in that order; for a key absent from the map it fails with a KeyError naming
the missing key. -/
theorem C7_threshold_subsetting (m : List (String × List String))
    (covar vs : List String) (k : String) (X : DataFrame) :
    (mapLookup m k = Except.ok vs →
      ∀ cs : List Column, lookupAll X (covar ++ vs) = some cs →
        multiThreshSubset m covar k X = Except.ok ⟨cs⟩ ∧
          cs.map Column.name = covar ++ vs) ∧
    (m.find? (fun p => p.1 = k) = none →
      multiThreshSubset m covar k X
        = Except.error (PyError.keyError k)) := by
  constructor
  · intro hk cs hcs
    refine ⟨?_, lookupAll_names X (covar ++ vs) cs hcs⟩
    simp [multiThreshSubset, hk, selectColumns, hcs]
  · intro hnone
    simp [multiThreshSubset, mapLookup, hnone]

/-- C7 witness: map {"t1" ↦ ["v1", "v2"]}, covariates ["age"], dataset with
columns age, v1, v2; the valid key "t1" selects [age, v1, v2] in order, and
the absent key "zz" raises KeyError "zz". -/
theorem C7_threshold_subsetting_witness :
    (multiThreshSubset [("t1", ["v1", "v2"])] ["age"] "t1"
        ⟨[⟨"age", [1]⟩, ⟨"v1", [2]⟩, ⟨"v2", [3]⟩]⟩
      = Except.ok ⟨[⟨"age", [1]⟩, ⟨"v1", [2]⟩, ⟨"v2", [3]⟩]⟩ ∧
      ([⟨"age", [1]⟩, ⟨"v1", [2]⟩, ⟨"v2", [(3 : ℚ)]⟩] : List Column).map
          Column.name = ["age"] ++ ["v1", "v2"]) ∧
    multiThreshSubset [("t1", ["v1", "v2"])] ["age"] "zz"
        ⟨[⟨"age", [1]⟩, ⟨"v1", [2]⟩, ⟨"v2", [3]⟩]⟩
      = Except.error (PyError.keyError "zz") := by
  have h := C7_threshold_subsetting [("t1", ["v1", "v2"])] ["age"]
    ["v1", "v2"] "t1" ⟨[⟨"age", [1]⟩, ⟨"v1", [2]⟩, ⟨"v2", [3]⟩]⟩
  have h2 := C7_threshold_subsetting [("t1", ["v1", "v2"])] ["age"]
    ["v1", "v2"] "zz" ⟨[⟨"age", [1]⟩, ⟨"v1", [2]⟩, ⟨"v2", [3]⟩]⟩
  exact ⟨h.1 (by rfl) [⟨"age", [1]⟩, ⟨"v1", [2]⟩, ⟨"v2", [3]⟩] (by decide),
    h2.2 (by decide)⟩

end AutoMLPRS
